import Mathlib

/-!
# Verification of the apploader package validator and key resolver

Shallow embedding of `src/app/apploader/apploader_package.cpp`:
* `apploader_parse_package_metadata` — the CBOR package validator;
* `get_key` — the hwkey-backed signing-key resolver.

The external CBOR decoder (`cppbor::parseWithViews`) is modelled by its
output: a tree of typed items carrying semantic tags and zero-copy views
(offset, length) into the original buffer.  The external hwkey service is
modelled by a record of the outcomes it produces during one call, and the
resolver's interaction with it is recorded as an explicit event trace.
-/

set_option autoImplicit false

namespace Apploader

/-- A decoded CBOR item, as produced by `cppbor::parseWithViews`.
Byte strings and text strings are zero-copy views, represented by the
(offset, length) of their bytes inside the original input buffer.
A semantic tag wraps the tagged item. -/
inductive Item where
  | uint (v : Nat)
  | nint (v : Nat)
  | viewBstr (off : Nat) (len : Nat)
  | viewTstr (off : Nat) (len : Nat)
  | array (elems : List Item)
  | map (entries : List (Item × Item))
  | semantic (tag : Nat) (inner : Item)

/-- Embedding of `Item::semanticTagCount()`: the number of semantic tags wrapped
around the item. -/
def semanticTagCount : Item → Nat
  | .semantic _ inner => semanticTagCount inner + 1
  | _ => 0

/-- Embedding of `Item::semanticTag()`: the value of the item's semantic tag (the
source only calls this after checking `semanticTagCount() == 1`). -/
def semanticTag : Item → Nat
  | .semantic t _ => t
  | _ => 0

/-- Embedding of `Item::asArray()`: in cppbor the cast reaches through semantic tags
and yields the element list when the wrapped item is an array. -/
def asArray : Item → Option (List Item)
  | .semantic _ inner => asArray inner
  | .array elems => some elems
  | _ => none

/-- Embedding of `Item::asUint()` followed by `Uint::unsignedValue()`. -/
def asUint : Item → Option Nat
  | .semantic _ inner => asUint inner
  | .uint v => some v
  | _ => none

/-- Embedding of `Item::asMap()`: the ordered (key, value) entry list. -/
def asMap : Item → Option (List (Item × Item))
  | .semantic _ inner => asMap inner
  | .map entries => some entries
  | _ => none

/-- Embedding of `Item::asViewBstr()` followed by `view().data()` / `view().size()`:
the (offset, length) of the byte string inside the original buffer. -/
def asViewBstr : Item → Option (Nat × Nat)
  | .semantic _ inner => asViewBstr inner
  | .viewBstr off len => some (off, len)
  | _ => none

/-- Modelled from the spec: `APPLOADER_PACKAGE_CBOR_TAG_APP` is declared
in `interface/apploader/apploader_package.h`, which is not among the
provided sources.  The spec only states it is a fixed semantic-tag
constant; no claim depends on its concrete value. -/
def APPLOADER_PACKAGE_CBOR_TAG_APP : Nat := 65536

/-- Modelled from the spec: `APPLOADER_PACKAGE_FORMAT_VERSION_CURRENT` is
declared in `interface/apploader/apploader_package.h`, which is not among
the provided sources.  The spec only states it is the single supported
version constant; no claim depends on its concrete value. -/
def APPLOADER_PACKAGE_FORMAT_VERSION_CURRENT : Nat := 1

/-- Modelled from the spec: `enum apploader_package_header_label` is
declared outside the provided sources, but the validator's `switch` over
header labels (lines 176–181 of `apploader_package.cpp`) has only a
`default:` branch, so the set of labels the validator recognizes is
empty. -/
def apploader_package_header_label : List Nat := []

/-- Modelled from the spec: `struct apploader_package_metadata` (from the
local header `apploader_package.h`, not among the provided sources),
restricted to the fields the validator writes.  The pointer fields are
represented by byte offsets into the original input buffer. -/
structure apploader_package_metadata where
  elf_start : Nat
  elf_size : Nat
  manifest_start : Nat
  manifest_size : Nat
deriving Repr, DecidableEq

/-- The distinct `return false` sites of
`apploader_parse_package_metadata`, one constructor per `TLOGE`+return
branch of the source, in source order. -/
inductive RejectReason where
  /-- line 114: `cppbor::parseWithViews` returned a null item -/
  | decodeError
  /-- line 119: `semanticTagCount() != 1` (zero tags or several tags) -/
  | badTagCount
  /-- line 124: the single semantic tag is not `APPLOADER_PACKAGE_CBOR_TAG_APP` -/
  | wrongTag
  /-- line 131: the root item is not a CBOR array -/
  | notAnArray
  /-- line 135: the array is empty -/
  | emptyArray
  /-- line 141: element 0 is not an unsigned integer -/
  | badVersionType
  /-- line 146: element 0 differs from `APPLOADER_PACKAGE_FORMAT_VERSION_CURRENT` -/
  | unsupportedVersion
  /-- line 153: the array does not have exactly 4 elements -/
  | wrongElementCount
  /-- line 160: element 1 is not a map -/
  | badHeadersType
  /-- line 169: a header key is not an unsigned integer -/
  | badHeaderLabelType
  /-- line 177: the `switch` over the header label hit `default` -/
  | unknownHeaderLabel
  /-- line 187: element 2 is not a byte-string view -/
  | badContentsType
  /-- line 196: element 3 is not a byte-string view -/
  | badManifestType
deriving Repr, DecidableEq

/-- The header loop of lines 167–182.  For each (key, value) entry the
source requires the key to be an unsigned integer and then switches on
its value; the `switch` has only a `default:` branch, so the loop body
returns `false` on every entry it examines and the loop only completes
when the map is empty. -/
def checkHeaders : List (Item × Item) → Except RejectReason Unit
  | [] => .ok ()
  | (label_item, _) :: _ =>
    match asUint label_item with
    | none => .error .badHeaderLabelType
    | some _ => .error .unknownHeaderLabel

/-- The body of `apploader_parse_package_metadata` (lines 119–208) on a
successfully decoded item, instrumented with the reason of each
`return false` site. -/
def validatePackageItem (pkg_item : Item) :
    Except RejectReason apploader_package_metadata :=
  if semanticTagCount pkg_item ≠ 1 then .error .badTagCount
  else if semanticTag pkg_item ≠ APPLOADER_PACKAGE_CBOR_TAG_APP then
    .error .wrongTag
  else
    match asArray pkg_item with
    | none => .error .notAnArray
    | some pkg_array =>
      if pkg_array.length = 0 then .error .emptyArray
      else
        match asUint (pkg_array.getD 0 (.array [])) with
        | none => .error .badVersionType
        | some version =>
          if version ≠ APPLOADER_PACKAGE_FORMAT_VERSION_CURRENT then
            .error .unsupportedVersion
          else if pkg_array.length ≠ 4 then .error .wrongElementCount
          else
            match asMap (pkg_array.getD 1 (.array [])) with
            | none => .error .badHeadersType
            | some headers =>
              match checkHeaders headers with
              | .error r => .error r
              | .ok () =>
                match asViewBstr (pkg_array.getD 2 (.array [])) with
                | none => .error .badContentsType
                | some (elf_start, elf_size) =>
                  match asViewBstr (pkg_array.getD 3 (.array [])) with
                  | none => .error .badManifestType
                  | some (manifest_start, manifest_size) =>
                    .ok ⟨elf_start, elf_size, manifest_start, manifest_size⟩

/-- The body of `apploader_parse_package_metadata` (lines 113–208),
instrumented with the reason of each `return false` site.  The input is
the decoder's output: `none` models `cppbor::parseWithViews` returning a
null item. -/
def validatePackage (decoded : Option Item) :
    Except RejectReason apploader_package_metadata :=
  match decoded with
  | none => .error .decodeError
  | some pkg_item => validatePackageItem pkg_item

theorem validatePackage_some (it : Item) :
    validatePackage (some it) = validatePackageItem it := rfl

/-- Embedding of `apploader_parse_package_metadata` as the caller sees it: a boolean
result, and the out-parameter `metadata`, which the source writes (all
four fields, lines 202–206) only after every check has passed; every
`return false` leaves it untouched. -/
def apploader_parse_package_metadata (decoded : Option Item)
    (metadata : apploader_package_metadata) :
    Bool × apploader_package_metadata :=
  match validatePackage decoded with
  | .error _ => (false, metadata)
  | .ok m => (true, m)

example :
    validatePackage
      (some (.semantic APPLOADER_PACKAGE_CBOR_TAG_APP
        (.array [.uint APPLOADER_PACKAGE_FORMAT_VERSION_CURRENT, .map [],
                 .viewBstr 10 2, .viewBstr 20 3]))) =
    .ok ⟨10, 2, 20, 3⟩ := rfl

example :
    validatePackage (some (.semantic 7 (.array []))) = .error .wrongTag := rfl

/-- Constant `kMaximumKeySize` (line 44): capacity of the key buffer and the
in/out size bound handed to hwkey. -/
def kMaximumKeySize : Nat := 128

/-- Embedding of `std::to_string(static_cast<unsigned>(key_id))`: the decimal digits
of a natural number, most significant first, with no sign and no leading
zeros (`0` is rendered as `"0"`). -/
def natDigits (n : Nat) : List Char :=
  if n < 10 then [Nat.digitChar n]
  else natDigits (n / 10) ++ [Nat.digitChar (n % 10)]
termination_by n
decreasing_by exact Nat.div_lt_self (by omega) (by omega)

/-- Rendering of `std::to_string` of an unsigned value, as a string. -/
def natDecimal (n : Nat) : String := ⟨natDigits n⟩

/-- The slot-name construction of `get_key`, lines 49–52:
`key_slot = "com.android.trusty.apploader." + op + ".key." + to_string(key_id)`. -/
def keySlotName (op : String) (key_id : Nat) : String :=
  "com.android.trusty.apploader." ++ op ++ ".key." ++ natDecimal key_id

/-- One call into the hwkey service, as observed by a mock service. -/
inductive HwkeyEvent where
  /-- Call `hwkey_open()` returned `rc` (a session handle when `0 ≤ rc`). -/
  | openCall (rc : Int)
  /-- Call `hwkey_get_keyslot_data(session, slot, buffer, &maxSize)` with the
  in/out size bound `maxSize`. -/
  | getKeyslotData (session : Int) (slot : String) (maxSize : Nat)
  /-- Call `hwkey_close(session)`. -/
  | closeCall (session : Int)
deriving Repr

/-- The outcomes the external environment produces during one `get_key`
call: whether `new (std::nothrow)` succeeds, the return value of
`hwkey_open`, the return value of `hwkey_get_keyslot_data`, and the
actual key size the service stores through the in/out pointer. -/
structure HwkeyWorld where
  allocOk : Bool
  openRc : Int
  getDataRc : Int
  actualKeySize : Nat
deriving Repr

/-- Embedding of `get_key` (lines 46–79).  The result models the returned
`std::tuple<std::unique_ptr<uint8_t[]>, size_t>`: every failure path
returns the value-initialized tuple `{}` (null pointer, size 0),
modelled as `none`; success returns the buffer with the
service-reported key size, modelled as `some size`.  The second
component is the trace of hwkey service calls the function performed. -/
def get_key (w : HwkeyWorld) (op : String) (key_id : Nat) :
    Option Nat × List HwkeyEvent :=
  let key_slot := keySlotName op key_id
  -- uint32_t key_size = kMaximumKeySize; new (std::nothrow) uint8_t[key_size]
  if ¬ w.allocOk then (none, [])
  else if w.openRc < 0 then
    -- hwkey_open failed: no session exists, return {}
    (none, [.openCall w.openRc])
  else if w.getDataRc < 0 then
    -- fetch failed: the session is closed (line 71) before returning {}
    (none, [.openCall w.openRc,
            .getKeyslotData w.openRc key_slot kMaximumKeySize,
            .closeCall w.openRc])
  else
    (some w.actualKeySize,
     [.openCall w.openRc,
      .getKeyslotData w.openRc key_slot kMaximumKeySize,
      .closeCall w.openRc])

/-- Number of `hwkey_open` attempts in a trace. -/
def countOpens (tr : List HwkeyEvent) : Nat :=
  tr.countP fun e => match e with | .openCall _ => true | _ => false

/-- Number of successful `hwkey_open` calls (nonnegative return) in a
trace: each one is a session that must eventually be closed. -/
def countGoodOpens (tr : List HwkeyEvent) : Nat :=
  tr.countP fun e => match e with
    | .openCall rc => decide (0 ≤ rc)
    | _ => false

/-- Number of `hwkey_close` calls in a trace. -/
def countCloses (tr : List HwkeyEvent) : Nat :=
  tr.countP fun e => match e with | .closeCall _ => true | _ => false

example : (get_key ⟨true, 5, 0, 16⟩ "decrypt" 3).1 = some 16 := rfl
example : (get_key ⟨true, -1, 0, 16⟩ "decrypt" 3).1 = none := rfl

/-! ### Helper lemmas about the decimal rendering and the slot name -/

/-- Numeric value of a decimal digit character. -/
def digitVal (c : Char) : Nat := c.toNat - 48

/-- Decode a most-significant-first list of decimal digit characters. -/
def digitsToNat (l : List Char) : Nat :=
  l.foldl (fun acc c => acc * 10 + digitVal c) 0

theorem digitVal_digitChar (k : Nat) (h : k < 10) :
    digitVal (Nat.digitChar k) = k := by
  interval_cases k <;> decide

theorem digitsToNat_append (l : List Char) (c : Char) :
    digitsToNat (l ++ [c]) = digitsToNat l * 10 + digitVal c := by
  simp [digitsToNat, List.foldl_append]

theorem digitsToNat_natDigits (n : Nat) : digitsToNat (natDigits n) = n := by
  induction n using Nat.strong_induction_on with
  | _ n ih =>
    unfold natDigits
    split
    · next h => simp [digitsToNat, digitVal_digitChar n h]
    · next h =>
      rw [digitsToNat_append,
          ih (n / 10) (Nat.div_lt_self (by omega) (by omega)),
          digitVal_digitChar (n % 10) (Nat.mod_lt n (by omega))]
      omega

theorem natDigits_inj {a b : Nat} (h : natDigits a = natDigits b) : a = b := by
  have hv := congrArg digitsToNat h
  rwa [digitsToNat_natDigits, digitsToNat_natDigits] at hv

theorem digitChar_ne_dot (k : Nat) (h : k < 10) : Nat.digitChar k ≠ '.' := by
  interval_cases k <;> decide

theorem natDigits_no_dot (n : Nat) : '.' ∉ natDigits n := by
  induction n using Nat.strong_induction_on with
  | _ n ih =>
    unfold natDigits
    split
    · next h =>
      simp only [List.mem_singleton]
      exact fun hh => digitChar_ne_dot n h hh.symm
    · next h =>
      intro hmem
      rw [List.mem_append] at hmem
      rcases hmem with hm | hm
      · exact ih (n / 10) (Nat.div_lt_self (by omega) (by omega)) hm
      · rw [List.mem_singleton] at hm
        exact digitChar_ne_dot (n % 10) (Nat.mod_lt n (by omega)) hm.symm

/-- If two strings of shape `u ++ '.' :: v` agree and neither `u`
contains a dot, the two parts agree. -/
theorem dotfree_append_dot_inj :
    ∀ (u₁ : List Char) {u₂ v₁ v₂ : List Char},
      '.' ∉ u₁ → '.' ∉ u₂ →
      u₁ ++ '.' :: v₁ = u₂ ++ '.' :: v₂ → u₁ = u₂ ∧ v₁ = v₂ := by
  intro u₁
  induction u₁ with
  | nil =>
    intro u₂ v₁ v₂ _ h2 h
    cases u₂ with
    | nil => simpa using h
    | cons d ds =>
      exfalso
      simp only [List.nil_append, List.cons_append, List.cons.injEq] at h
      apply h2
      rw [← h.1]
      exact List.mem_cons_self '.' ds
  | cons c cs ih =>
    intro u₂ v₁ v₂ h1 h2 h
    cases u₂ with
    | nil =>
      exfalso
      simp only [List.nil_append, List.cons_append, List.cons.injEq] at h
      apply h1
      rw [h.1]
      exact List.mem_cons_self '.' cs
    | cons d ds =>
      simp only [List.cons_append, List.cons.injEq] at h
      obtain ⟨hcd, htl⟩ := h
      have h1' : '.' ∉ cs := fun hm => h1 (List.mem_cons_of_mem _ hm)
      have h2' : '.' ∉ ds := fun hm => h2 (List.mem_cons_of_mem _ hm)
      obtain ⟨hu, hv⟩ := ih h1' h2' htl
      exact ⟨by rw [hcd, hu], hv⟩

theorem data_append (a b : String) : (a ++ b).data = a.data ++ b.data := rfl

theorem keySep_data : (".key." : String).data = ['.', 'k', 'e', 'y', '.'] := rfl

theorem keySlotName_data (op : String) (id : Nat) :
    (keySlotName op id).data =
      ("com.android.trusty.apploader." : String).data ++
        (op.data ++ (['.', 'k', 'e', 'y', '.'] ++ natDigits id)) := by
  simp [keySlotName, natDecimal, data_append, keySep_data, List.append_assoc]

/-- Distinct `(operation, key_id)` pairs yield distinct slot names: the
digits of `key_id` contain no `'.'`, so the final `".key." ++ digits`
suffix is parsed back unambiguously. -/
theorem keySlotName_inj {op₁ op₂ : String} {id₁ id₂ : Nat}
    (h : keySlotName op₁ id₁ = keySlotName op₂ id₂) : op₁ = op₂ ∧ id₁ = id₂ := by
  have hd := congrArg String.data h
  rw [keySlotName_data, keySlotName_data] at hd
  have hd₂ := List.append_cancel_left hd
  have hr := congrArg List.reverse hd₂
  simp only [List.reverse_append, List.reverse_cons, List.reverse_nil,
    List.nil_append, List.cons_append, List.append_assoc] at hr
  have hsplit := dotfree_append_dot_inj (natDigits id₁).reverse
      (fun hm => natDigits_no_dot id₁ (List.mem_reverse.mp hm))
      (fun hm => natDigits_no_dot id₂ (List.mem_reverse.mp hm)) hr
  obtain ⟨hrev, hrest⟩ := hsplit
  have hid : id₁ = id₂ := natDigits_inj (List.reverse_injective hrev)
  simp only [List.cons.injEq, true_and] at hrest
  exact ⟨String.ext (List.reverse_injective hrest), hid⟩

/-- Inversion helper: a successful validation implies the decoded root
is an array whose element 1 is a map with no entries (the header loop
rejects every entry it examines). -/
theorem validatePackage_ok_inv (it : Item) (m : apploader_package_metadata)
    (h : validatePackage (some it) = .ok m) :
    ∃ elems, asArray it = some elems ∧
      asMap (elems.getD 1 (.array [])) = some [] := by
  rw [validatePackage_some] at h
  unfold validatePackageItem at h
  by_cases h1 : semanticTagCount it ≠ 1
  · rw [if_pos h1] at h; simp at h
  · rw [if_neg h1] at h
    by_cases h2 : semanticTag it ≠ APPLOADER_PACKAGE_CBOR_TAG_APP
    · rw [if_pos h2] at h; simp at h
    · rw [if_neg h2] at h
      cases ha : asArray it with
      | none => rw [ha] at h; simp at h
      | some elems =>
        rw [ha] at h
        simp only [] at h
        refine ⟨elems, rfl, ?_⟩
        by_cases hl : elems.length = 0
        · rw [if_pos hl] at h; simp at h
        · rw [if_neg hl] at h
          cases hv : asUint (elems.getD 0 (.array [])) with
          | none => rw [hv] at h; simp at h
          | some v =>
            rw [hv] at h
            simp only [] at h
            by_cases hvv : v ≠ APPLOADER_PACKAGE_FORMAT_VERSION_CURRENT
            · rw [if_pos hvv] at h; simp at h
            · rw [if_neg hvv] at h
              by_cases hlen : elems.length ≠ 4
              · rw [if_pos hlen] at h; simp at h
              · rw [if_neg hlen] at h
                cases hm : asMap (elems.getD 1 (.array [])) with
                | none => rw [hm] at h; simp at h
                | some entries =>
                  rw [hm] at h
                  simp only [] at h
                  cases entries with
                  | nil => rfl
                  | cons q rest =>
                    obtain ⟨k, val⟩ := q
                    cases hk : asUint k with
                    | none => simp [checkHeaders, hk] at h
                    | some l => simp [checkHeaders, hk] at h

/-- A list of length 4 is exactly a 4-element list. -/
theorem list_eq_four {α : Type} {l : List α} (h : l.length = 4) :
    ∃ a b c d, l = [a, b, c, d] := by
  cases l with
  | nil => simp at h
  | cons a t1 =>
    cases t1 with
    | nil => simp at h
    | cons b t2 =>
      cases t2 with
      | nil => simp at h
      | cons c t3 =>
        cases t3 with
        | nil => simp at h
        | cons d t4 =>
          cases t4 with
          | nil => exact ⟨a, b, c, d, rfl⟩
          | cons e t5 =>
            simp only [List.length_cons] at h
            omega

/-! ### Claims about the package validator -/

/-- C1: a buffer that decodes to an item carrying exactly one semantic
tag equal to `APPLOADER_PACKAGE_CBOR_TAG_APP`, whose root is a 4-element
array of the supported version, an empty headers map, and two
byte-string views, validates successfully and the returned metadata is
exactly the two views' (offset, length) pairs into the original buffer —
no bytes are copied, and the caller's metadata is overwritten with
precisely those positions. -/
theorem parse_valid_package_zero_copy
    (o₁ l₁ o₂ l₂ : Nat) (m₀ : apploader_package_metadata) :
    apploader_parse_package_metadata
      (some (.semantic APPLOADER_PACKAGE_CBOR_TAG_APP
        (.array [.uint APPLOADER_PACKAGE_FORMAT_VERSION_CURRENT, .map [],
                 .viewBstr o₁ l₁, .viewBstr o₂ l₂]))) m₀ =
    (true, ⟨o₁, l₁, o₂, l₂⟩) := rfl

/-- C2: whenever `apploader_parse_package_metadata` fails (any rejection
reason), the caller-supplied metadata structure is returned completely
unmodified — no field of a partially valid package is ever written. -/
theorem parse_failure_leaves_metadata_unmodified
    (decoded : Option Item) (m₀ : apploader_package_metadata)
    (h : (apploader_parse_package_metadata decoded m₀).1 = false) :
    (apploader_parse_package_metadata decoded m₀).2 = m₀ := by
  unfold apploader_parse_package_metadata at h ⊢
  cases hv : validatePackage decoded with
  | error r => rfl
  | ok m => rw [hv] at h; simp at h

/-- C2 witness: a decode failure leaves a concrete metadata value
untouched. -/
theorem parse_failure_leaves_metadata_unmodified_witness :
    (apploader_parse_package_metadata none ⟨1, 2, 3, 4⟩).2 = ⟨1, 2, 3, 4⟩ :=
  parse_failure_leaves_metadata_unmodified none ⟨1, 2, 3, 4⟩ rfl

/-- C3: a package passing the tag checks whose root is a non-empty array
with an unsigned-integer element 0 different from
`APPLOADER_PACKAGE_FORMAT_VERSION_CURRENT` is rejected with the
version-specific reason, regardless of the array's element count — the
version check (source lines 140–151) precedes the element-count check
(line 153). -/
theorem version_check_precedes_length_check
    (it : Item) (elems : List Item) (v : Nat)
    (htc : semanticTagCount it = 1)
    (ht : semanticTag it = APPLOADER_PACKAGE_CBOR_TAG_APP)
    (ha : asArray it = some elems)
    (hne : elems ≠ [])
    (hv : asUint (elems.getD 0 (.array [])) = some v)
    (hvv : v ≠ APPLOADER_PACKAGE_FORMAT_VERSION_CURRENT) :
    validatePackage (some it) = .error .unsupportedVersion := by
  obtain ⟨v0, rest, rfl⟩ : ∃ a r, elems = a :: r := by
    cases elems with
    | nil => exact absurd rfl hne
    | cons a r => exact ⟨a, r, rfl⟩
  rw [validatePackage_some]
  unfold validatePackageItem
  rw [if_neg (by simp [htc]), if_neg (by simp [ht]), ha]
  simp only []
  rw [if_neg (by simp), hv]
  simp only []
  rw [if_pos hvv]

/-- C3 witness: a 2-element array (count also different from 4) with a
wrong version is rejected for its version, not its length. -/
theorem version_check_precedes_length_check_witness :
    validatePackage
      (some (.semantic APPLOADER_PACKAGE_CBOR_TAG_APP
        (.array [.uint 7, .uint 0]))) = .error .unsupportedVersion :=
  version_check_precedes_length_check _ [.uint 7, .uint 0] 7 rfl rfl rfl
    (List.cons_ne_nil _ _) rfl (by decide)

/-- C4 counterexample: an item with zero semantic tags and an item with
two semantic tags produce the very same result of
`apploader_parse_package_metadata` (and of the instrumented
`validatePackage`) — the zero-tag and multiple-tag failure shapes are
not distinguishable from one another in the function's result, contrary
to the claim. -/
theorem tag_failures_not_distinct_counterexample :
    semanticTagCount (Item.array []) = 0 ∧
    semanticTagCount
      (Item.semantic APPLOADER_PACKAGE_CBOR_TAG_APP
        (Item.semantic APPLOADER_PACKAGE_CBOR_TAG_APP (Item.array []))) = 2 ∧
    apploader_parse_package_metadata (some (Item.array [])) ⟨0, 0, 0, 0⟩ =
      apploader_parse_package_metadata
        (some (Item.semantic APPLOADER_PACKAGE_CBOR_TAG_APP
          (Item.semantic APPLOADER_PACKAGE_CBOR_TAG_APP (Item.array []))))
        ⟨0, 0, 0, 0⟩ ∧
    validatePackage (some (Item.array [])) =
      validatePackage
        (some (Item.semantic APPLOADER_PACKAGE_CBOR_TAG_APP
          (Item.semantic APPLOADER_PACKAGE_CBOR_TAG_APP (Item.array [])))) :=
  ⟨rfl, rfl, rfl, rfl⟩

/-- C4 (amended): the validator accepts only items carrying exactly one
semantic tag equal to `APPLOADER_PACKAGE_CBOR_TAG_APP`; zero tags and
more than one tag are rejected by one shared tag-count check — the same
rejection case for both, not distinguishable from each other — while a
single tag with the wrong value is a separate rejection case. -/
theorem tag_check_shapes (it : Item) :
    (semanticTagCount it ≠ 1 →
      validatePackage (some it) = .error .badTagCount) ∧
    (semanticTagCount it = 1 →
      semanticTag it ≠ APPLOADER_PACKAGE_CBOR_TAG_APP →
      validatePackage (some it) = .error .wrongTag) ∧
    (∀ m, validatePackage (some it) = .ok m →
      semanticTagCount it = 1 ∧
      semanticTag it = APPLOADER_PACKAGE_CBOR_TAG_APP) := by
  refine ⟨?_, ?_, ?_⟩
  · intro h
    rw [validatePackage_some]
    unfold validatePackageItem
    rw [if_pos h]
  · intro h1 h2
    rw [validatePackage_some]
    unfold validatePackageItem
    rw [if_neg (by simp [h1]), if_pos h2]
  · intro m h
    rw [validatePackage_some] at h
    unfold validatePackageItem at h
    by_cases h1 : semanticTagCount it = 1
    · by_cases h2 : semanticTag it = APPLOADER_PACKAGE_CBOR_TAG_APP
      · exact ⟨h1, h2⟩
      · rw [if_neg (by simp [h1]), if_pos h2] at h
        simp at h
    · rw [if_pos h1] at h
      simp at h

/-- C4 witness: the three tag checks at concrete inputs — a zero-tag
item hits the tag-count case, a wrongly tagged item hits the tag-value
case, and a concrete accepted package has exactly one matching tag. -/
theorem tag_check_shapes_witness :
    validatePackage (some (Item.array [])) = .error .badTagCount ∧
    validatePackage (some (Item.semantic 7 (Item.array []))) =
      .error .wrongTag ∧
    (semanticTagCount
        (Item.semantic APPLOADER_PACKAGE_CBOR_TAG_APP
          (Item.array [.uint APPLOADER_PACKAGE_FORMAT_VERSION_CURRENT,
            .map [], .viewBstr 10 2, .viewBstr 20 3])) = 1 ∧
      semanticTag
        (Item.semantic APPLOADER_PACKAGE_CBOR_TAG_APP
          (Item.array [.uint APPLOADER_PACKAGE_FORMAT_VERSION_CURRENT,
            .map [], .viewBstr 10 2, .viewBstr 20 3])) =
        APPLOADER_PACKAGE_CBOR_TAG_APP) :=
  ⟨(tag_check_shapes (Item.array [])).1 (by decide),
   (tag_check_shapes (Item.semantic 7 (Item.array []))).2.1 rfl (by decide),
   (tag_check_shapes _).2.2 ⟨10, 2, 20, 3⟩ rfl⟩

/-- C5: a package passing the tag, array, version and element-count
checks whose element 1 is a map containing any entry with a non-integer
key, or an integer key outside the (empty) recognized enumeration
`apploader_package_header_label`, is rejected as a whole — unknown
labels are never skipped. -/
theorem unknown_header_label_rejects
    (it : Item) (elems : List Item) (entries : List (Item × Item))
    (htc : semanticTagCount it = 1)
    (ht : semanticTag it = APPLOADER_PACKAGE_CBOR_TAG_APP)
    (ha : asArray it = some elems)
    (hlen : elems.length = 4)
    (hv : asUint (elems.getD 0 (.array [])) =
      some APPLOADER_PACKAGE_FORMAT_VERSION_CURRENT)
    (hm : asMap (elems.getD 1 (.array [])) = some entries)
    (hbad : ∃ p ∈ entries, asUint p.1 = none ∨
      ∃ l, asUint p.1 = some l ∧ l ∉ apploader_package_header_label) :
    validatePackage (some it) = .error .badHeaderLabelType ∨
    validatePackage (some it) = .error .unknownHeaderLabel := by
  obtain ⟨e0, e1, e2, e3, rfl⟩ := list_eq_four hlen
  cases entries with
  | nil =>
    obtain ⟨p, hp, -⟩ := hbad
    exact absurd hp (List.not_mem_nil p)
  | cons q rest =>
    obtain ⟨k, val⟩ := q
    have hrej : validatePackage (some it) =
        .error (match asUint k with
                | none => RejectReason.badHeaderLabelType
                | some _ => RejectReason.unknownHeaderLabel) := by
      rw [validatePackage_some]
      unfold validatePackageItem
      rw [if_neg (by simp [htc]), if_neg (by simp [ht]), ha]
      simp only []
      rw [if_neg (by simp), hv]
      simp only []
      rw [if_neg (by simp), if_neg (by simp), hm]
      simp only []
      cases hk : asUint k with
      | none => simp [checkHeaders, hk]
      | some l => simp [checkHeaders, hk]
    cases hk : asUint k with
    | none => left; rw [hrej, hk]
    | some l => right; rw [hrej, hk]

/-- C5 witness: a package whose headers map has the single entry
`5 ↦ 0` is rejected through the header-label check. -/
theorem unknown_header_label_rejects_witness :
    validatePackage
      (some (.semantic APPLOADER_PACKAGE_CBOR_TAG_APP
        (.array [.uint APPLOADER_PACKAGE_FORMAT_VERSION_CURRENT,
          .map [(.uint 5, .uint 0)], .viewBstr 10 2, .viewBstr 20 3]))) =
      .error .badHeaderLabelType ∨
    validatePackage
      (some (.semantic APPLOADER_PACKAGE_CBOR_TAG_APP
        (.array [.uint APPLOADER_PACKAGE_FORMAT_VERSION_CURRENT,
          .map [(.uint 5, .uint 0)], .viewBstr 10 2, .viewBstr 20 3]))) =
      .error .unknownHeaderLabel :=
  unknown_header_label_rejects _ _ [(.uint 5, .uint 0)] rfl rfl rfl rfl rfl rfl
    ⟨(.uint 5, .uint 0), List.mem_cons_self _ _,
      Or.inr ⟨5, rfl, List.not_mem_nil 5⟩⟩

/-- C10: because the header-label switch recognizes no label at all,
`apploader_parse_package_metadata` succeeds only when the package's
headers map has no entries: every successful parse decodes to an array
whose element 1 is an empty map. -/
theorem success_requires_empty_headers
    (decoded : Option Item) (m₀ m' : apploader_package_metadata)
    (h : apploader_parse_package_metadata decoded m₀ = (true, m')) :
    ∃ it elems, decoded = some it ∧ asArray it = some elems ∧
      asMap (elems.getD 1 (.array [])) = some [] := by
  cases decoded with
  | none =>
    exact absurd h (by simp [apploader_parse_package_metadata, validatePackage])
  | some it =>
    have hok : validatePackage (some it) = .ok m' := by
      unfold apploader_parse_package_metadata at h
      cases hv : validatePackage (some it) with
      | error r => rw [hv] at h; simp at h
      | ok m =>
        rw [hv] at h
        simp only [] at h
        injection h with h1 h2
        rw [h2]
    obtain ⟨elems, ha, hmap⟩ := validatePackage_ok_inv it m' hok
    exact ⟨it, elems, rfl, ha, hmap⟩

/-- C10 witness: the empty-headers conclusion extracted from a concrete
successful parse. -/
theorem success_requires_empty_headers_witness :
    ∃ it elems,
      (some (.semantic APPLOADER_PACKAGE_CBOR_TAG_APP
        (.array [.uint APPLOADER_PACKAGE_FORMAT_VERSION_CURRENT, .map [],
          .viewBstr 10 2, .viewBstr 20 3])) : Option Item) = some it ∧
      asArray it = some elems ∧
      asMap (elems.getD 1 (.array [])) = some [] :=
  success_requires_empty_headers _ ⟨0, 0, 0, 0⟩ ⟨10, 2, 20, 3⟩ rfl

/-! ### Claims about the key resolver -/

/-- C6: on every execution path of `get_key` — allocation failure, open
failure, fetch failure, success — at most one `hwkey_open` is attempted,
the number of successfully opened sessions equals the number of
`hwkey_close` calls (every opened session is closed exactly once before
return), and every close closes a session that was opened in the same
call; no path leaks an open session. -/
theorem get_key_no_session_leak (w : HwkeyWorld) (op : String) (id : Nat) :
    countGoodOpens (get_key w op id).2 = countCloses (get_key w op id).2 ∧
    countOpens (get_key w op id).2 ≤ 1 ∧
    (∀ s, HwkeyEvent.closeCall s ∈ (get_key w op id).2 →
      HwkeyEvent.openCall s ∈ (get_key w op id).2) := by
  unfold get_key
  by_cases ha : w.allocOk
  · by_cases ho : w.openRc < 0
    · have hno : ¬ (0 ≤ w.openRc) := by omega
      simp [ha, ho, hno, countGoodOpens, countOpens, countCloses]
    · have hyes : 0 ≤ w.openRc := by omega
      by_cases hg : w.getDataRc < 0 <;>
        simp [ha, ho, hg, hyes, countGoodOpens, countOpens, countCloses]
  · simp [ha, countGoodOpens, countOpens, countCloses]

/-- C6 witness: on the fetch-failure path the session that was opened is
indeed reported as opened for the close event. -/
theorem get_key_no_session_leak_witness :
    HwkeyEvent.openCall 5 ∈ (get_key ⟨true, 5, -2, 0⟩ "decrypt" 3).2 :=
  (get_key_no_session_leak ⟨true, 5, -2, 0⟩ "decrypt" 3).2.2 5
    (List.Mem.tail _ (List.Mem.tail _ (List.Mem.head _)))

/-- C7: every key-slot fetch `get_key` performs uses exactly the slot
name `"com.android.trusty.apploader." ++ op ++ ".key." ++` the decimal
form of `key_id`; in particular `("decrypt", 3)` derives
`"com.android.trusty.apploader.decrypt.key.3"`, and distinct
`(operation, key_id)` pairs always derive distinct slot names. -/
theorem get_key_slot_name (w : HwkeyWorld) (op : String) (id : Nat) :
    (∀ s slot b, HwkeyEvent.getKeyslotData s slot b ∈ (get_key w op id).2 →
      slot = "com.android.trusty.apploader." ++ op ++ ".key." ++ natDecimal id) ∧
    keySlotName "decrypt" 3 = "com.android.trusty.apploader.decrypt.key.3" ∧
    (∀ op₂ id₂, (op, id) ≠ (op₂, id₂) →
      keySlotName op id ≠ keySlotName op₂ id₂) := by
  refine ⟨?_, ?_, ?_⟩
  · intro s slot b hmem
    unfold get_key at hmem
    by_cases ha : w.allocOk
    · by_cases ho : w.openRc < 0
      · simp [ha, ho] at hmem
      · by_cases hg : w.getDataRc < 0 <;>
          simp [ha, ho, hg, keySlotName] at hmem <;>
          exact hmem.2.1
    · simp [ha] at hmem
  · have h3 : natDecimal 3 = "3" := by
      simp [natDecimal, natDigits, Nat.digitChar]
    rw [keySlotName, h3]
    decide
  · intro op₂ id₂ hne heq
    obtain ⟨h1, h2⟩ := keySlotName_inj heq
    exact hne (by rw [h1, h2])

/-- C7 witness: the slot-name format at the concrete fetch event of a
successful call, and distinctness at a concrete pair of key ids. -/
theorem get_key_slot_name_witness :
    keySlotName "decrypt" 3 =
      "com.android.trusty.apploader." ++ "decrypt" ++ ".key." ++ natDecimal 3 ∧
    keySlotName "decrypt" 3 ≠ keySlotName "decrypt" 4 :=
  ⟨(get_key_slot_name ⟨true, 5, 0, 16⟩ "decrypt" 3).1 5 (keySlotName "decrypt" 3)
      kMaximumKeySize (List.Mem.tail _ (List.Mem.head _)),
   (get_key_slot_name ⟨true, 5, 0, 16⟩ "decrypt" 3).2.2 "decrypt" 4 (by decide)⟩

/-- C8: `get_key` always passes the hwkey service the in/out size bound
`kMaximumKeySize = 128` (also the allocated buffer's capacity), never a
larger value; on success it returns exactly the service-reported key
size, which is at most 128 whenever the service honors the in/out
contract (reported size ≤ passed bound). -/
theorem get_key_size_bound (w : HwkeyWorld) (op : String) (id : Nat) :
    kMaximumKeySize = 128 ∧
    (∀ s slot b, HwkeyEvent.getKeyslotData s slot b ∈ (get_key w op id).2 →
      b = 128) ∧
    (∀ sz, (get_key w op id).1 = some sz → sz = w.actualKeySize) ∧
    (w.actualKeySize ≤ 128 →
      ∀ sz, (get_key w op id).1 = some sz → sz ≤ 128) := by
  have key : ∀ sz, (get_key w op id).1 = some sz → sz = w.actualKeySize := by
    intro sz hsz
    unfold get_key at hsz
    by_cases ha : w.allocOk
    · by_cases ho : w.openRc < 0
      · simp [ha, ho] at hsz
      · by_cases hg : w.getDataRc < 0
        · simp [ha, ho, hg] at hsz
        · simp [ha, ho, hg] at hsz
          exact hsz.symm
    · simp [ha] at hsz
  refine ⟨rfl, ?_, key, fun hle sz hsz => (key sz hsz) ▸ hle⟩
  intro s slot b hmem
  unfold get_key at hmem
  by_cases ha : w.allocOk
  · by_cases ho : w.openRc < 0
    · simp [ha, ho] at hmem
    · by_cases hg : w.getDataRc < 0 <;>
        simp [ha, ho, hg, kMaximumKeySize] at hmem <;>
        exact hmem.2.2
  · simp [ha] at hmem

/-- C8 witness: a concrete successful call passed bound 128 and returned
the service-reported size 16 ≤ 128. -/
theorem get_key_size_bound_witness :
    (128 : Nat) = 128 ∧ (16 : Nat) = 16 ∧ (16 : Nat) ≤ 128 :=
  ⟨(get_key_size_bound ⟨true, 5, 0, 16⟩ "decrypt" 3).2.1 5
      (keySlotName "decrypt" 3) kMaximumKeySize
      (List.Mem.tail _ (List.Mem.head _)),
   (get_key_size_bound ⟨true, 5, 0, 16⟩ "decrypt" 3).2.2.1 16 rfl,
   (get_key_size_bound ⟨true, 5, 0, 16⟩ "decrypt" 3).2.2.2 (by decide) 16 rfl⟩

/-- C9 counterexample: the three failure modes of `get_key` — allocation
failure, `hwkey_open` failure, and fetch failure — all return the very
same value-initialized tuple `{}` (null buffer, size 0, modelled
`none`): the caller cannot distinguish any of them from the return
value, contrary to the claim that they yield distinct error values. -/
theorem get_key_failures_same_value_counterexample :
    (get_key ⟨false, 0, 0, 0⟩ "decrypt" 3).1 =
      (get_key ⟨true, -1, 0, 0⟩ "decrypt" 3).1 ∧
    (get_key ⟨true, -1, 0, 0⟩ "decrypt" 3).1 =
      (get_key ⟨true, 5, -2, 0⟩ "decrypt" 3).1 ∧
    (get_key ⟨false, 0, 0, 0⟩ "decrypt" 3).1 = none :=
  ⟨rfl, rfl, rfl⟩

/-- C9 (amended): each of `get_key`'s three failure modes — allocation
failure, failed key-store open, failed fetch — returns the same empty
tuple (null buffer, size 0); the failure modes are distinguished only in
the log output, not in the value returned to the caller. -/
theorem get_key_failures_uniform (w : HwkeyWorld) (op : String) (id : Nat) :
    (w.allocOk = false → (get_key w op id).1 = none) ∧
    (w.openRc < 0 → (get_key w op id).1 = none) ∧
    (0 ≤ w.openRc → w.getDataRc < 0 → (get_key w op id).1 = none) := by
  refine ⟨?_, ?_, ?_⟩
  · intro h
    simp [get_key, h]
  · intro h
    by_cases ha : w.allocOk <;> simp [get_key, ha, h]
  · intro h1 h2
    have ho : ¬ w.openRc < 0 := by omega
    by_cases ha : w.allocOk <;> simp [get_key, ha, ho, h2]

/-- C9 witness: the three failure modes at concrete environments all
produce the empty result. -/
theorem get_key_failures_uniform_witness :
    (get_key ⟨false, 0, 0, 0⟩ "decrypt" 3).1 = none ∧
    (get_key ⟨true, -1, 0, 0⟩ "decrypt" 3).1 = none ∧
    (get_key ⟨true, 5, -2, 0⟩ "decrypt" 3).1 = none :=
  ⟨(get_key_failures_uniform ⟨false, 0, 0, 0⟩ "decrypt" 3).1 rfl,
   (get_key_failures_uniform ⟨true, -1, 0, 0⟩ "decrypt" 3).2.1 (by decide),
   (get_key_failures_uniform ⟨true, 5, -2, 0⟩ "decrypt" 3).2.2 (by decide)
     (by decide)⟩

end Apploader
